import Mathlib

set_option maxRecDepth 100000

/-!
# Verification of the product-record processing pipeline (`src/main.py`)

Shallow embedding of the Python program in `src/main.py` and proofs about it.

Modelling conventions:
* Python `float` values that the program manipulates (prices, discounts,
  derived totals) are modelled as exact rationals (`ℚ`); `round(x, 2)` is
  modelled as exact round-half-to-even at two decimal places (`round2`).
  Binary floating-point artefacts, `inf`/`nan` literals and exponent
  notation are outside the model.
* Python `int` values are modelled as `ℤ`; numeric-literal parsing
  (`int(s)`, `float(s)`) is modelled for plain signed decimal literals with
  surrounding whitespace, which is the format the program's input uses
  (digit-group underscores and unicode digits are outside the model).
* Python's `set` of used ids is modelled as a `List ℤ` with membership;
  insertion conses the (fresh) element.
* `datetime.strptime(s, "%Y-%m-%d").date()` is modelled by `pyDate?`
  (4-digit year, 1–2 digit month/day, calendar validity with Gregorian
  leap years), and "today" is an explicit parameter of the embedding.
* File I/O is modelled by `ReadResult`: either the list of lines of the
  file, or the exception `open` raised (`FileNotFoundError` versus any
  other `OSError`), mirroring the `try/except FileNotFoundError` in
  `process_file`.
-/

/-- ASCII whitespace stripped by Python `str.strip()`. -/
def isSpaceChar (c : Char) : Bool :=
  c = ' ' || c = '\t' || c = '\n' || c = '\r' || c = '\x0b' || c = '\x0c'

/-- `str.strip()` on the underlying character list. -/
def trimChars (cs : List Char) : List Char :=
  ((cs.dropWhile isSpaceChar).reverse.dropWhile isSpaceChar).reverse

/-- Model of Python `str.strip()`. -/
def pyStrip (s : String) : String := ⟨trimChars s.data⟩

/-- Split a character list at every occurrence of `sep`
(Python `str.split(sep)` semantics: `"".split(sep) = [""]`,
separators are not merged). The result is always nonempty. -/
def splitOnChar (sep : Char) : List Char → List (List Char)
  | [] => [[]]
  | c :: cs =>
    match splitOnChar sep cs with
    | [] => [[]]
    | f :: rest => if c = sep then [] :: f :: rest else (c :: f) :: rest

/-- Model of Python `str.split(sep)` for a one-character separator. -/
def pySplit (s : String) (sep : Char) : List String :=
  (splitOnChar sep s.data).map (fun cs => ⟨cs⟩)

/-- All characters are ASCII decimal digits. -/
def allDigits (cs : List Char) : Bool := cs.all (·.isDigit)

/-- Numeric value of a digit string. -/
def digitsVal (cs : List Char) : ℕ :=
  cs.foldl (fun n c => 10 * n + (c.toNat - 48)) 0

/-- A nonempty run of digits, as a natural number. -/
def parseDigits? (cs : List Char) : Option ℕ :=
  if !cs.isEmpty && allDigits cs then some (digitsVal cs) else none

/-- Model of Python `int(s)` for plain signed decimal integer literals
(leading/trailing whitespace allowed, as in Python). -/
def pyInt? (s : String) : Option ℤ :=
  match (pyStrip s).data with
  | '-' :: cs => (parseDigits? cs).map (fun v => -(v : ℤ))
  | '+' :: cs => (parseDigits? cs).map (fun v => (v : ℤ))
  | cs => (parseDigits? cs).map (fun v => (v : ℤ))

/-- Unsigned decimal literal: `digits`, `digits.digits`, `digits.` or
`.digits` (at least one digit overall). -/
def parseDecimal? (cs : List Char) : Option ℚ :=
  match splitOnChar '.' cs with
  | [a] => if !a.isEmpty && allDigits a then some ((digitsVal a : ℚ)) else none
  | [a, b] =>
    if (allDigits a && allDigits b) && !(a.isEmpty && b.isEmpty) then
      some ((digitsVal a : ℚ) + (digitsVal b : ℚ) / ((10 : ℚ) ^ b.length))
    else none
  | _ => none

/-- Model of Python `float(s)` for plain signed decimal literals
(leading/trailing whitespace allowed; no exponent, `inf` or `nan`). -/
def pyFloat? (s : String) : Option ℚ :=
  match (pyStrip s).data with
  | '-' :: cs => (parseDecimal? cs).map (fun v => -v)
  | '+' :: cs => parseDecimal? cs
  | cs => parseDecimal? cs

/-- A calendar date as produced by `datetime.date`. -/
structure PyDate where
  year : ℕ
  month : ℕ
  day : ℕ
deriving DecidableEq

/-- `datetime.date` strict comparison `a < b` (lexicographic). -/
def dateLt (a b : PyDate) : Bool :=
  if a.year ≠ b.year then decide (a.year < b.year)
  else if a.month ≠ b.month then decide (a.month < b.month)
  else decide (a.day < b.day)

/-- Gregorian leap year, as implemented by `datetime`. -/
def isLeapYear (y : ℕ) : Bool :=
  (y % 4 == 0 && y % 100 != 0) || y % 400 == 0

/-- Number of days of month `m` of year `y`. -/
def daysInMonth (y m : ℕ) : ℕ :=
  if m = 2 then (if isLeapYear y then 29 else 28)
  else if m = 4 ∨ m = 6 ∨ m = 9 ∨ m = 11 then 30
  else 31

/-- Model of `datetime.strptime(s, "%Y-%m-%d").date()`: a 4-digit year,
1–2 digit month and day, the whole string consumed, and the triple a
valid calendar date (`datetime` would raise `ValueError` otherwise). -/
def pyDate? (s : String) : Option PyDate :=
  match pySplit s '-' with
  | [ys, ms, ds] =>
    if allDigits ys.data = true ∧ ys.length = 4 ∧
       allDigits ms.data = true ∧ 1 ≤ ms.length ∧ ms.length ≤ 2 ∧
       allDigits ds.data = true ∧ 1 ≤ ds.length ∧ ds.length ≤ 2 then
      let y := digitsVal ys.data
      let m := digitsVal ms.data
      let d := digitsVal ds.data
      if 1 ≤ y ∧ 1 ≤ m ∧ m ≤ 12 ∧ 1 ≤ d ∧ d ≤ daysInMonth y m then
        some ⟨y, m, d⟩
      else none
    else none
  | _ => none

/-- Round a rational to the nearest integer, ties to even
(the rounding rule of Python `round`). -/
def roundHalfEven (q : ℚ) : ℤ :=
  let n := q.floor
  if q - n < 1/2 then n
  else if (1/2 : ℚ) < q - n then n + 1
  else if n % 2 = 0 then n else n + 1

/-- Model of Python `round(x, 2)` over exact rationals. -/
def round2 (q : ℚ) : ℚ := (roundHalfEven (100 * q) : ℚ) / 100

/-- `DELIMITER = ";"` (src/main.py line 5). -/
def DELIMITER : Char := ';'

/-- `ALLOWED_CATEGORIES` (src/main.py line 8); a list models the Python
set, membership being all the program uses. -/
def ALLOWED_CATEGORIES : List String := ["electronics", "food", "books", "clothes"]

/-- The dictionary returned by successful validation
(src/main.py lines 91–98). -/
structure ValidRecord where
  id : ℤ
  name : String
  category : String
  final_price : ℚ
  quantity : ℤ
  total_value : ℚ
deriving DecidableEq

/-- Outcome of `parse_and_validate`: a record, or the message of the
`ValidationError` it raises. -/
inductive VResult where
  | ok (r : ValidRecord)
  | err (msg : String)
deriving DecidableEq

/-- `parts = line.strip().split(DELIMITER)` (src/main.py line 22). -/
def fields (line : String) : List String := pySplit (pyStrip line) DELIMITER

/-- The `i`-th element of `parts` (the tuple unpacking at line 27 is
modelled by positional access; only positions 0–6 are used, and only
after the length-7 check). -/
def fld (line : String) (i : ℕ) : String := (fields line).getD i ""

/-- Embedding of `parse_and_validate` (src/main.py lines 16–98).
Returns the outcome together with the `used_ids` set after the call:
the set is grown as soon as the id checks pass (line 36), so a failure
of any later check still leaves the id consumed.  Raised
`ValidationError`s are modelled as the `.err` constructor; note that in
the source the `except ValueError` handlers do not catch
`ValidationError` (it subclasses `Exception`, not `ValueError`), so the
range-check errors raised inside the `try` blocks propagate unchanged,
exactly as modelled here. -/
def parse_and_validate (line : String) (line_number : ℕ) (used_ids : List ℤ)
    (today : PyDate) : VResult × List ℤ :=
  if (fields line).length ≠ 7 then (.err "Неверное количество полей", used_ids)
  else
    match pyInt? (fld line 0) with
    | none => (.err "id не является числом", used_ids)
    | some record_id =>
      if record_id ≤ 0 then (.err "id должен быть положительным", used_ids)
      else if record_id ∈ used_ids then (.err "id должен быть уникальным", used_ids)
      else
        let used_ids' := record_id :: used_ids
        let name := pyStrip (fld line 1)
        if name.length < 3 ∨ 50 < name.length then (.err "некорректная длина name", used_ids')
        else if fld line 2 ∉ ALLOWED_CATEGORIES then (.err "неизвестная категория", used_ids')
        else
          match pyFloat? (fld line 3) with
          | none => (.err "price имеет неверный формат", used_ids')
          | some price =>
            if price ≤ 0 then (.err "price должен быть больше нуля", used_ids')
            else
              match pyInt? (fld line 4) with
              | none => (.err "quantity не является целым числом", used_ids')
              | some quantity =>
                if quantity < 0 then (.err "quantity не может быть отрицательным", used_ids')
                else
                  match pyFloat? (fld line 5) with
                  | none => (.err "discount имеет неверный формат", used_ids')
                  | some discount =>
                    if discount < 0 ∨ 50 < discount then
                      (.err "discount вне диапазона 0–50", used_ids')
                    else if fld line 2 = "food" ∧ 20 < discount then
                      (.err "слишком большая скидка для food", used_ids')
                    else
                      match pyDate? (fld line 6) with
                      | none => (.err "неверный формат даты", used_ids')
                      | some created_at =>
                        if dateLt today created_at then
                          (.err "дата указана в будущем", used_ids')
                        else
                          let final_price := price * (1 - discount / 100)
                          if final_price < 1 then
                            (.err "итоговая цена меньше 1", used_ids')
                          else
                            (.ok { id := record_id, name := name, category := fld line 2,
                                   final_price := round2 final_price, quantity := quantity,
                                   total_value := round2 (final_price * (quantity : ℚ)) },
                             used_ids')

/-- The loop of `process_file` (src/main.py lines 111–120): 1-based line
numbers, blank lines recorded as errors without touching the validator,
other lines dispatched on the validation outcome.  Appending to the two
Python lists is modelled by consing onto the recursively produced
suffix, which builds the same order. -/
def processLines (today : PyDate) (used : List ℤ) (n : ℕ) :
    List String → List ValidRecord × List (ℕ × String)
  | [] => ([], [])
  | line :: rest =>
    if pyStrip line = "" then
      ((processLines today used (n + 1) rest).1,
       (n, "пустая строка") :: (processLines today used (n + 1) rest).2)
    else
      match parse_and_validate line n used today with
      | (VResult.ok r, used') =>
        (r :: (processLines today used' (n + 1) rest).1,
         (processLines today used' (n + 1) rest).2)
      | (VResult.err m, used') =>
        ((processLines today used' (n + 1) rest).1,
         (n, m) :: (processLines today used' (n + 1) rest).2)

/-- What `open(path)` produced: the file's lines, or the exception class
it raised. -/
inductive IOFailure where
  | fileNotFound
  | otherOSError
deriving DecidableEq

/-- An input source for `process_file`. -/
inductive ReadResult where
  | ok (lines : List String)
  | failure (e : IOFailure)
deriving DecidableEq

/-- Embedding of `process_file` (src/main.py lines 101–125).  The
`used_ids` set and both output lists are created fresh inside the call
(lines 105–107).  Only `FileNotFoundError` is caught (line 121); any
other exception raised while opening or reading the file propagates to
the caller, modelled by `Except.error`. -/
def process_file (src : ReadResult) (today : PyDate) :
    Except IOFailure (List ValidRecord × List (ℕ × String)) :=
  match src with
  | ReadResult.ok lines => Except.ok (processLines today [] 1 lines)
  | ReadResult.failure IOFailure.fileNotFound => Except.ok ([], [])
  | ReadResult.failure e => Except.error e

/-- Per-category accumulator (`{"count": 0, "value": 0.0}`). -/
structure CategoryStat where
  count : ℕ
  value : ℚ
deriving DecidableEq

/-- The statistics dictionary (src/main.py lines 132–136); `by_category`
is an insertion-ordered association list, modelling the Python dict. -/
structure Statistics where
  total_value : ℚ
  avg_price : ℚ
  by_category : List (String × CategoryStat)
deriving DecidableEq

/-- One `defaultdict` access-and-update of the category map
(src/main.py lines 144–147): an existing key is updated in place, a
missing key is appended with the default `{count 0, value 0}` already
bumped by this record. -/
def updateCat (m : List (String × CategoryStat)) (c : String) (tv : ℚ) :
    List (String × CategoryStat) :=
  match m with
  | [] => [(c, ⟨1, tv⟩)]
  | (k, s) :: rest =>
    if k = c then (k, ⟨s.count + 1, s.value + tv⟩) :: rest
    else (k, s) :: updateCat rest c tv

/-- Embedding of `calculate_statistics` (src/main.py lines 128–149). -/
def calculate_statistics (records : List ValidRecord) : Statistics :=
  if records = [] then ⟨0, 0, []⟩
  else
    { total_value := (records.map (fun r => r.total_value)).sum
      avg_price := (records.map (fun r => r.final_price)).sum / (records.length : ℚ)
      by_category := records.foldl (fun acc r => updateCat acc r.category r.total_value) [] }

/-- The record count printed by `generate_report`
(src/main.py line 159): `len(valid) + len(errors)`. -/
def report_total_records (valid : List ValidRecord) (errors : List (ℕ × String)) : ℕ :=
  valid.length + errors.length

/-- One run of the pipeline as wired by `main` (src/main.py lines
189–190): process the input, then aggregate the valid records. -/
def run_pipeline (src : ReadResult) (today : PyDate) :
    Except IOFailure (List ValidRecord × List (ℕ × String) × Statistics) :=
  match process_file src today with
  | Except.ok (valid, errors) => Except.ok (valid, errors, calculate_statistics valid)
  | Except.error e => Except.error e

/-- The id field's parsed value (`0` when unparseable; only consulted
after parseability is established). -/
def idOf (line : String) : ℤ := (pyInt? (fld line 0)).getD 0

/-- The price field's parsed value (`0` when unparseable). -/
def priceOf (line : String) : ℚ := (pyFloat? (fld line 3)).getD 0

/-- The quantity field's parsed value (`0` when unparseable). -/
def qtyOf (line : String) : ℤ := (pyInt? (fld line 4)).getD 0

/-- The discount field's parsed value (`0` when unparseable). -/
def discountOf (line : String) : ℚ := (pyFloat? (fld line 5)).getD 0

/-- The date field's parsed value (a placeholder when unparseable). -/
def dateOf (line : String) : PyDate := (pyDate? (fld line 6)).getD ⟨1, 1, 1⟩

/-- The validation rules of `parse_and_validate`, each as an independent
predicate of the raw line, in source order.  Indices 0–15 refine the
spec's ten ordered steps (steps with several distinct failure messages
are split, keeping their in-source order). -/
def ruleOk (line : String) (used : List ℤ) (today : PyDate) : ℕ → Bool
  | 0 => decide ((fields line).length = 7)
  | 1 => (pyInt? (fld line 0)).isSome
  | 2 => decide (0 < idOf line)
  | 3 => decide (idOf line ∉ used)
  | 4 => decide (3 ≤ (pyStrip (fld line 1)).length ∧ (pyStrip (fld line 1)).length ≤ 50)
  | 5 => decide (fld line 2 ∈ ALLOWED_CATEGORIES)
  | 6 => (pyFloat? (fld line 3)).isSome
  | 7 => decide (0 < priceOf line)
  | 8 => (pyInt? (fld line 4)).isSome
  | 9 => decide (0 ≤ qtyOf line)
  | 10 => (pyFloat? (fld line 5)).isSome
  | 11 => decide (0 ≤ discountOf line ∧ discountOf line ≤ 50)
  | 12 => decide (¬(fld line 2 = "food" ∧ 20 < discountOf line))
  | 13 => (pyDate? (fld line 6)).isSome
  | 14 => !dateLt today (dateOf line)
  | 15 => decide (1 ≤ priceOf line * (1 - discountOf line / 100))
  | _ => true

/-- The `ValidationError` message raised when rule `k` is the first to
fail. -/
def reasonOf : ℕ → String
  | 0 => "Неверное количество полей"
  | 1 => "id не является числом"
  | 2 => "id должен быть положительным"
  | 3 => "id должен быть уникальным"
  | 4 => "некорректная длина name"
  | 5 => "неизвестная категория"
  | 6 => "price имеет неверный формат"
  | 7 => "price должен быть больше нуля"
  | 8 => "quantity не является целым числом"
  | 9 => "quantity не может быть отрицательным"
  | 10 => "discount имеет неверный формат"
  | 11 => "discount вне диапазона 0–50"
  | 12 => "слишком большая скидка для food"
  | 13 => "неверный формат даты"
  | 14 => "дата указана в будущем"
  | 15 => "итоговая цена меньше 1"
  | _ => ""

/-- Record-level invariant of successful validation.  The last conjunct
records how `total_value` is derived: from the unrounded final price
`fp`, of which the stored `final_price` is the 2-decimal rounding. -/
def RecordInvariant (r : ValidRecord) : Prop :=
  1 ≤ r.final_price ∧ 0 ≤ r.quantity ∧ r.category ∈ ALLOWED_CATEGORIES ∧
  3 ≤ r.name.length ∧ r.name.length ≤ 50 ∧
  ∃ fp : ℚ, 1 ≤ fp ∧ r.final_price = round2 fp ∧
    r.total_value = round2 (fp * (r.quantity : ℚ))

example :
    (parse_and_validate "1;Widget;electronics;100.00;2;10;2020-01-01" 1 [] ⟨2026, 10, 12⟩).1 =
      VResult.ok ⟨1, "Widget", "electronics", 90, 2, 180⟩ := by with_unfolding_all decide

example :
    (parse_and_validate "2;Widget;food;50.00;2;25;2020-01-01" 1 [] ⟨2026, 10, 12⟩).1 =
      VResult.err "слишком большая скидка для food" := by with_unfolding_all decide

example :
    (parse_and_validate "3;AB;books;20;1;0;2020-01-01" 1 [] ⟨2026, 10, 12⟩).1 =
      VResult.err "некорректная длина name" := by with_unfolding_all decide

example :
    (parse_and_validate "1;Other;clothes;30;1;0;2020-01-01" 1 [1] ⟨2026, 10, 12⟩).1 =
      VResult.err "id должен быть уникальным" := by with_unfolding_all decide

lemma processLines_length (today : PyDate) :
    ∀ (ls : List String) (u : List ℤ) (m : ℕ),
      (processLines today u m ls).1.length + (processLines today u m ls).2.length = ls.length := by
  intro ls
  induction ls with
  | nil => intro u m; simp [processLines]
  | cons line rest ih =>
    intro u m
    by_cases hb : pyStrip line = ""
    · have := ih u (m + 1)
      simp only [processLines, if_pos hb, List.length_cons]
      omega
    · rcases hv : parse_and_validate line m u today with ⟨res, u'⟩
      have := ih u' (m + 1)
      cases res <;> simp only [processLines, if_neg hb, hv, List.length_cons] <;> omega

/-- C10: every input line contributes exactly one output — a valid
record or a `(line_number, reason)` error — so the two output lengths
sum to the number of input lines, and the report's total-records count
(`len(valid) + len(errors)`) equals the number of lines read. -/
theorem C10_partition (today : PyDate) (used : List ℤ) (n : ℕ) (lines : List String) :
    (processLines today used n lines).1.length + (processLines today used n lines).2.length
        = lines.length ∧
    report_total_records (processLines today used n lines).1 (processLines today used n lines).2
        = lines.length := by
  refine ⟨processLines_length today lines used n, ?_⟩
  simpa [report_total_records] using processLines_length today lines used n

/-- C5 as stated is false: a read failure other than
`FileNotFoundError` (e.g. a permission error on an unreadable file) is
not caught by `process_file` — the exception propagates past its
boundary instead of yielding empty sequences. -/
theorem C5_counterexample :
    process_file (ReadResult.failure IOFailure.otherOSError) ⟨2026, 10, 12⟩ =
      Except.error IOFailure.otherOSError := rfl

/-- C5 (amended): when the input file is missing (`FileNotFoundError`),
`process_file` reports the condition and returns empty valid and error
sequences instead of raising, so the run still renders a report; only
this exception class is handled. -/
theorem C5_missing_file_soft (today : PyDate) :
    process_file (ReadResult.failure IOFailure.fileNotFound) today = Except.ok ([], []) := rfl

/-- C9: the pipeline is deterministic and idempotent across runs: each
call of `process_file` builds its `used_ids` set and its valid/error
sequences afresh (src/main.py lines 105–107), so the embedding is a
pure function of the input lines and the current date, and two runs on
the same input produce identical valid records, identical errors and
identical statistics. -/
theorem C9_idempotent (src : ReadResult) (today : PyDate) :
    run_pipeline src today = run_pipeline src today ∧
    process_file src today = process_file src today := ⟨rfl, rfl⟩

/-- C8: a line that is empty after stripping is recorded as the error
`"пустая строка"` at its line number; the validator is not invoked on
it and the remaining lines are processed with the `used_ids` set
unchanged. -/
theorem C8_blank_line (today : PyDate) (used : List ℤ) (n : ℕ) (line : String)
    (rest : List String) (h : pyStrip line = "") :
    processLines today used n (line :: rest) =
      ((processLines today used (n + 1) rest).1,
       (n, "пустая строка") :: (processLines today used (n + 1) rest).2) := by
  simp [processLines, h]

/-- Witness for C8 at a concrete whitespace-only line. -/
theorem C8_witness :
    processLines ⟨2026, 10, 12⟩ [] 1 ["   "] = ([], [(1, "пустая строка")]) := by
  have h := C8_blank_line ⟨2026, 10, 12⟩ [] 1 "   " [] (by decide)
  simpa [processLines] using h

/-- C3: as soon as a line's id field parses to a positive, not-yet-seen
integer, the id is added to `used_ids` — whatever happens to the rest of
the line — and any later line whose id field parses to the same value is
rejected as a duplicate. -/
theorem C3_id_consumed_immediately (line : String) (n : ℕ) (used : List ℤ) (today : PyDate)
    (i : ℤ)
    (h7 : (fields line).length = 7)
    (hid : pyInt? (fld line 0) = some i)
    (hpos : 0 < i) (hnew : i ∉ used) :
    (parse_and_validate line n used today).2 = i :: used ∧
    ∀ (line2 : String) (n2 : ℕ) (today2 : PyDate),
      (fields line2).length = 7 →
      pyInt? (fld line2 0) = some i →
      (parse_and_validate line2 n2 (parse_and_validate line n used today).2 today2).1 =
        VResult.err "id должен быть уникальным" := by
  have hle : ¬ i ≤ 0 := by omega
  have hfst : (parse_and_validate line n used today).2 = i :: used := by
    simp only [parse_and_validate, h7, hid, hle, hnew]
    simp only [ne_eq, not_true_eq_false, if_false, not_false_eq_true, if_true, ite_not]
    repeat' split
    all_goals rfl
  refine ⟨hfst, ?_⟩
  intro line2 n2 today2 h72 hid2
  rw [hfst]
  simp [parse_and_validate, h72, hid2, hle]

/-- Witness for C3: the first line's name is too short, so it yields no
record, yet its id 5 is consumed and the second line is rejected as a
duplicate. -/
theorem C3_witness :
    (parse_and_validate "5;AB;books;10;1;0;2020-01-01" 1 [] ⟨2026, 10, 12⟩).2 = [5] ∧
    (parse_and_validate "5;Other;clothes;30;1;0;2020-01-01" 2
        (parse_and_validate "5;AB;books;10;1;0;2020-01-01" 1 [] ⟨2026, 10, 12⟩).2
        ⟨2026, 10, 12⟩).1 =
      VResult.err "id должен быть уникальным" := by
  have h := C3_id_consumed_immediately "5;AB;books;10;1;0;2020-01-01" 1 [] ⟨2026, 10, 12⟩ 5
    (by decide) (by decide) (by decide) (by decide)
  exact ⟨h.1, h.2 "5;Other;clothes;30;1;0;2020-01-01" 2 ⟨2026, 10, 12⟩ (by decide) (by decide)⟩

lemma updateCat_value_sum (c : String) (tv : ℚ) :
    ∀ m : List (String × CategoryStat),
      ((updateCat m c tv).map (fun p => p.2.value)).sum =
        (m.map (fun p => p.2.value)).sum + tv
  | [] => by simp [updateCat]
  | (k, s) :: rest => by
    by_cases hk : k = c
    · simp only [updateCat, if_pos hk, List.map_cons, List.sum_cons]
      ring
    · simp only [updateCat, if_neg hk, List.map_cons, List.sum_cons,
        updateCat_value_sum c tv rest]
      ring

lemma foldl_value_sum (rs : List ValidRecord) :
    ∀ m : List (String × CategoryStat),
      ((rs.foldl (fun acc r => updateCat acc r.category r.total_value) m).map
          (fun p => p.2.value)).sum =
        (m.map (fun p => p.2.value)).sum + (rs.map (fun r => r.total_value)).sum := by
  induction rs with
  | nil => intro m; simp
  | cons r rest ih =>
    intro m
    simp only [List.foldl_cons, List.map_cons, List.sum_cons]
    rw [ih, updateCat_value_sum]
    ring

/-- C6: on the empty list `calculate_statistics` returns all-zero
statistics with an empty category mapping; on a nonempty list the total
is the sum of the records' `total_value` fields, the average price is
the sum of `final_price` fields divided by the record count, and the
per-category values of `by_category` sum (exactly) to the total. -/
theorem C6_statistics (records : List ValidRecord) :
    calculate_statistics [] = ⟨0, 0, []⟩ ∧
    (records ≠ [] →
      (calculate_statistics records).total_value
          = (records.map (fun r => r.total_value)).sum ∧
      (calculate_statistics records).avg_price
          = (records.map (fun r => r.final_price)).sum / (records.length : ℚ) ∧
      ((calculate_statistics records).by_category.map (fun p => p.2.value)).sum
          = (calculate_statistics records).total_value) := by
  refine ⟨by simp [calculate_statistics], fun h => ?_⟩
  simp only [calculate_statistics, if_neg h]
  refine ⟨by trivial, by trivial, ?_⟩
  simpa using foldl_value_sum records []

/-- Witness for C6 on a concrete one-record list. -/
theorem C6_witness :
    calculate_statistics [] = ⟨0, 0, []⟩ ∧
    ((calculate_statistics [ValidRecord.mk 1 "Widget" "electronics" 90 2 180]).total_value
        = ([ValidRecord.mk 1 "Widget" "electronics" 90 2 180].map (fun r => r.total_value)).sum ∧
      (calculate_statistics [ValidRecord.mk 1 "Widget" "electronics" 90 2 180]).avg_price
        = ([ValidRecord.mk 1 "Widget" "electronics" 90 2 180].map (fun r => r.final_price)).sum
            / (([ValidRecord.mk 1 "Widget" "electronics" 90 2 180] : List ValidRecord).length : ℚ) ∧
      ((calculate_statistics [ValidRecord.mk 1 "Widget" "electronics" 90 2 180]).by_category.map
          (fun p => p.2.value)).sum
        = (calculate_statistics [ValidRecord.mk 1 "Widget" "electronics" 90 2 180]).total_value) :=
  ⟨(C6_statistics []).1,
   (C6_statistics [ValidRecord.mk 1 "Widget" "electronics" 90 2 180]).2 (by simp)⟩

/-- Instrumented variant of `processLines` that additionally tags each
valid record with the line number it came from.  A verification
artefact for stating the ordering claim; `processLinesTagged_erase`
ties it to `processLines`. -/
def processLinesTagged (today : PyDate) (used : List ℤ) (n : ℕ) :
    List String → List (ℕ × ValidRecord) × List (ℕ × String)
  | [] => ([], [])
  | line :: rest =>
    if pyStrip line = "" then
      ((processLinesTagged today used (n + 1) rest).1,
       (n, "пустая строка") :: (processLinesTagged today used (n + 1) rest).2)
    else
      match parse_and_validate line n used today with
      | (VResult.ok r, used') =>
        ((n, r) :: (processLinesTagged today used' (n + 1) rest).1,
         (processLinesTagged today used' (n + 1) rest).2)
      | (VResult.err m, used') =>
        ((processLinesTagged today used' (n + 1) rest).1,
         (n, m) :: (processLinesTagged today used' (n + 1) rest).2)

lemma processLinesTagged_erase (today : PyDate) :
    ∀ (lines : List String) (used : List ℤ) (n : ℕ),
      (processLinesTagged today used n lines).1.map Prod.snd
          = (processLines today used n lines).1 ∧
      (processLinesTagged today used n lines).2 = (processLines today used n lines).2 := by
  intro lines
  induction lines with
  | nil => intro used n; simp [processLines, processLinesTagged]
  | cons line rest ih =>
    intro used n
    by_cases hb : pyStrip line = ""
    · simp [processLines, processLinesTagged, hb, (ih used (n + 1)).1, (ih used (n + 1)).2]
    · rcases hv : parse_and_validate line n used today with ⟨res, u'⟩
      cases res <;>
        simp [processLines, processLinesTagged, hb, hv, (ih u' (n + 1)).1, (ih u' (n + 1)).2]

lemma processLinesTagged_valid_lb (today : PyDate) :
    ∀ (lines : List String) (used : List ℤ) (n : ℕ) (p : ℕ × ValidRecord),
      p ∈ (processLinesTagged today used n lines).1 → n ≤ p.1 := by
  intro lines
  induction lines with
  | nil => intro used n p hp; simp [processLinesTagged] at hp
  | cons line rest ih =>
    intro used n p hp
    by_cases hb : pyStrip line = ""
    · simp only [processLinesTagged, if_pos hb] at hp
      have := ih used (n + 1) p hp; omega
    · rcases hv : parse_and_validate line n used today with ⟨res, u'⟩
      cases res with
      | ok r =>
        simp only [processLinesTagged, if_neg hb, hv, List.mem_cons] at hp
        rcases hp with rfl | hp
        · simp
        · have := ih u' (n + 1) p hp; omega
      | err m =>
        simp only [processLinesTagged, if_neg hb, hv] at hp
        have := ih u' (n + 1) p hp; omega

lemma processLines_err_lb (today : PyDate) :
    ∀ (lines : List String) (used : List ℤ) (n : ℕ) (p : ℕ × String),
      p ∈ (processLines today used n lines).2 → n ≤ p.1 := by
  intro lines
  induction lines with
  | nil => intro used n p hp; simp [processLines] at hp
  | cons line rest ih =>
    intro used n p hp
    by_cases hb : pyStrip line = ""
    · simp only [processLines, if_pos hb, List.mem_cons] at hp
      rcases hp with rfl | hp
      · simp
      · have := ih used (n + 1) p hp; omega
    · rcases hv : parse_and_validate line n used today with ⟨res, u'⟩
      cases res with
      | ok r =>
        simp only [processLines, if_neg hb, hv] at hp
        have := ih u' (n + 1) p hp; omega
      | err m =>
        simp only [processLines, if_neg hb, hv, List.mem_cons] at hp
        rcases hp with rfl | hp
        · simp
        · have := ih u' (n + 1) p hp; omega

lemma processLinesTagged_valid_sorted (today : PyDate) :
    ∀ (lines : List String) (used : List ℤ) (n : ℕ),
      ((processLinesTagged today used n lines).1).Pairwise (fun p q => p.1 < q.1) := by
  intro lines
  induction lines with
  | nil => intro used n; simp [processLinesTagged]
  | cons line rest ih =>
    intro used n
    by_cases hb : pyStrip line = ""
    · simp only [processLinesTagged, if_pos hb]
      exact ih used (n + 1)
    · rcases hv : parse_and_validate line n used today with ⟨res, u'⟩
      cases res with
      | ok r =>
        simp only [processLinesTagged, if_neg hb, hv]
        refine List.Pairwise.cons ?_ (ih u' (n + 1))
        intro q hq
        have := processLinesTagged_valid_lb today rest u' (n + 1) q hq
        simp only []
        omega
      | err m =>
        simp only [processLinesTagged, if_neg hb, hv]
        exact ih u' (n + 1)

lemma processLines_err_sorted (today : PyDate) :
    ∀ (lines : List String) (used : List ℤ) (n : ℕ),
      ((processLines today used n lines).2).Pairwise (fun p q => p.1 < q.1) := by
  intro lines
  induction lines with
  | nil => intro used n; simp [processLines]
  | cons line rest ih =>
    intro used n
    by_cases hb : pyStrip line = ""
    · simp only [processLines, if_pos hb]
      refine List.Pairwise.cons ?_ (ih used (n + 1))
      intro q hq
      have := processLines_err_lb today rest used (n + 1) q hq
      simp only []
      omega
    · rcases hv : parse_and_validate line n used today with ⟨res, u'⟩
      cases res with
      | ok r =>
        simp only [processLines, if_neg hb, hv]
        exact ih u' (n + 1)
      | err m =>
        simp only [processLines, if_neg hb, hv]
        refine List.Pairwise.cons ?_ (ih u' (n + 1))
        intro q hq
        have := processLines_err_lb today rest u' (n + 1) q hq
        simp only []
        omega

/-- First-occurrence subsequence of a list of categories, skipping
those already `seen`: the spec-side reading of "insertion order
(first-seen category first)". -/
def firstOccAux (seen : List String) : List String → List String
  | [] => []
  | c :: cs => if c ∈ seen then firstOccAux seen cs else c :: firstOccAux (c :: seen) cs

lemma updateCat_keys (c : String) (tv : ℚ) :
    ∀ m : List (String × CategoryStat),
      (updateCat m c tv).map Prod.fst =
        if c ∈ m.map Prod.fst then m.map Prod.fst else m.map Prod.fst ++ [c]
  | [] => by simp [updateCat]
  | (k, s) :: rest => by
    have hrec := updateCat_keys c tv rest
    by_cases hk : k = c
    · subst hk; simp [updateCat]
    · have hck : ¬ c = k := fun h => hk h.symm
      by_cases hc : c ∈ rest.map Prod.fst
      · simp [updateCat, hk, hc, hck, hrec]
      · simp [updateCat, hk, hc, hck, hrec]

lemma firstOccAux_congr :
    ∀ (l s₁ s₂ : List String), (∀ x, x ∈ s₁ ↔ x ∈ s₂) →
      firstOccAux s₁ l = firstOccAux s₂ l
  | [], _, _, _ => rfl
  | c :: cs, s₁, s₂, h => by
    by_cases hc : c ∈ s₁
    · simp only [firstOccAux, if_pos hc, if_pos ((h c).mp hc)]
      exact firstOccAux_congr cs s₁ s₂ h
    · have hc2 : c ∉ s₂ := fun hx => hc ((h c).mpr hx)
      simp only [firstOccAux, if_neg hc, if_neg hc2]
      refine congrArg (c :: ·) (firstOccAux_congr cs (c :: s₁) (c :: s₂) ?_)
      intro x
      simp [h x]

lemma foldl_keys (rs : List ValidRecord) :
    ∀ m : List (String × CategoryStat),
      (rs.foldl (fun acc r => updateCat acc r.category r.total_value) m).map Prod.fst =
        m.map Prod.fst ++ firstOccAux (m.map Prod.fst) (rs.map (fun r => r.category)) := by
  induction rs with
  | nil => intro m; simp [firstOccAux]
  | cons r rest ih =>
    intro m
    simp only [List.foldl_cons, List.map_cons]
    rw [ih, updateCat_keys]
    by_cases hc : r.category ∈ m.map Prod.fst
    · simp only [if_pos hc, firstOccAux]
    · simp only [if_neg hc, firstOccAux]
      have hcongr := firstOccAux_congr (rest.map (fun r => r.category))
        (m.map Prod.fst ++ [r.category]) (r.category :: m.map Prod.fst)
        (by intro x; simp [or_comm])
      rw [hcongr]
      simp [List.append_assoc]

/-- C7: ordering.  The error sequence of `processLines` carries
strictly increasing line numbers; the valid-record sequence, tagged
with originating line numbers (`processLinesTagged`, which erases to
`processLines`), also carries strictly increasing line numbers; and the
`by_category` mapping lists categories in first-seen order. -/
theorem C7_order_preservation (today : PyDate) (lines : List String) :
    ((processLinesTagged today [] 1 lines).1.map Prod.snd
        = (processLines today [] 1 lines).1 ∧
      (processLinesTagged today [] 1 lines).2 = (processLines today [] 1 lines).2 ∧
      ((processLinesTagged today [] 1 lines).1).Pairwise (fun p q => p.1 < q.1)) ∧
    ((processLines today [] 1 lines).2).Pairwise (fun p q => p.1 < q.1) ∧
    (calculate_statistics (processLines today [] 1 lines).1).by_category.map Prod.fst =
      firstOccAux [] ((processLines today [] 1 lines).1.map (fun r => r.category)) := by
  refine ⟨⟨(processLinesTagged_erase today lines [] 1).1,
          (processLinesTagged_erase today lines [] 1).2,
          processLinesTagged_valid_sorted today lines [] 1⟩,
         processLines_err_sorted today lines [] 1, ?_⟩
  by_cases h : (processLines today [] 1 lines).1 = []
  · simp [h, calculate_statistics, firstOccAux]
  · simp only [calculate_statistics, if_neg h]
    simpa using foldl_keys (processLines today [] 1 lines).1 []

lemma reasonOf_inj : ∀ k, k < 16 → ∀ j, j < 16 → reasonOf k = reasonOf j → k = j := by decide

lemma validate_first_fail (line : String) (n : ℕ) (used : List ℤ) (today : PyDate)
    (i : ℕ) (hi : i < 16)
    (hbelow : ∀ j, j < i → ruleOk line used today j = true)
    (hthis : ruleOk line used today i = false) :
    (parse_and_validate line n used today).1 = VResult.err (reasonOf i) := by
  interval_cases i
  · have hf : ¬ (fields line).length = 7 := by
      simpa [ruleOk, decide_eq_false_iff_not] using hthis
    simp [parse_and_validate, hf, reasonOf]
  · have h0 : (fields line).length = 7 := by simpa [ruleOk] using hbelow 0 (by omega)
    rcases hio : pyInt? (fld line 0) with _ | v
    · simp [parse_and_validate, h0, hio, reasonOf]
    · simp [ruleOk, hio] at hthis
  · have h0 : (fields line).length = 7 := by simpa [ruleOk] using hbelow 0 (by omega)
    obtain ⟨v, hv⟩ : ∃ v, pyInt? (fld line 0) = some v := by
      simpa [ruleOk, Option.isSome_iff_exists] using hbelow 1 (by omega)
    have hv02 : v ≤ 0 := by
      have := hthis
      simp [ruleOk, idOf, hv, decide_eq_false_iff_not] at this
      omega
    simp [parse_and_validate, h0, hv, hv02, reasonOf]
  · have h0 : (fields line).length = 7 := by simpa [ruleOk] using hbelow 0 (by omega)
    obtain ⟨v, hv⟩ : ∃ v, pyInt? (fld line 0) = some v := by
      simpa [ruleOk, Option.isSome_iff_exists] using hbelow 1 (by omega)
    have hv0 : ¬ v ≤ 0 := by
      have := hbelow 2 (by omega); simp [ruleOk, idOf, hv] at this; omega
    have hmem : v ∈ used := by
      have := hthis
      simpa [ruleOk, idOf, hv, decide_eq_false_iff_not, not_not] using this
    simp [parse_and_validate, h0, hv, hv0, hmem, reasonOf]
  · have h0 : (fields line).length = 7 := by simpa [ruleOk] using hbelow 0 (by omega)
    obtain ⟨v, hv⟩ : ∃ v, pyInt? (fld line 0) = some v := by
      simpa [ruleOk, Option.isSome_iff_exists] using hbelow 1 (by omega)
    have hv0 : ¬ v ≤ 0 := by
      have := hbelow 2 (by omega); simp [ruleOk, idOf, hv] at this; omega
    have hvm : v ∉ used := by simpa [ruleOk, idOf, hv] using hbelow 3 (by omega)
    have hbad : (pyStrip (fld line 1)).length < 3 ∨ 50 < (pyStrip (fld line 1)).length := by
      have := hthis
      simp [ruleOk, decide_eq_false_iff_not] at this
      omega
    simp [parse_and_validate, h0, hv, hv0, hvm, hbad, reasonOf]
  · have h0 : (fields line).length = 7 := by simpa [ruleOk] using hbelow 0 (by omega)
    obtain ⟨v, hv⟩ : ∃ v, pyInt? (fld line 0) = some v := by
      simpa [ruleOk, Option.isSome_iff_exists] using hbelow 1 (by omega)
    have hv0 : ¬ v ≤ 0 := by
      have := hbelow 2 (by omega); simp [ruleOk, idOf, hv] at this; omega
    have hvm : v ∉ used := by simpa [ruleOk, idOf, hv] using hbelow 3 (by omega)
    have hnm : ¬ ((pyStrip (fld line 1)).length < 3 ∨ 50 < (pyStrip (fld line 1)).length) := by
      have := hbelow 4 (by omega); simp [ruleOk] at this; omega
    have hnc : fld line 2 ∉ ALLOWED_CATEGORIES := by
      simpa [ruleOk, decide_eq_false_iff_not] using hthis
    simp [parse_and_validate, h0, hv, hv0, hvm, hnm, hnc, reasonOf]
  · have h0 : (fields line).length = 7 := by simpa [ruleOk] using hbelow 0 (by omega)
    obtain ⟨v, hv⟩ : ∃ v, pyInt? (fld line 0) = some v := by
      simpa [ruleOk, Option.isSome_iff_exists] using hbelow 1 (by omega)
    have hv0 : ¬ v ≤ 0 := by
      have := hbelow 2 (by omega); simp [ruleOk, idOf, hv] at this; omega
    have hvm : v ∉ used := by simpa [ruleOk, idOf, hv] using hbelow 3 (by omega)
    have hnm : ¬ ((pyStrip (fld line 1)).length < 3 ∨ 50 < (pyStrip (fld line 1)).length) := by
      have := hbelow 4 (by omega); simp [ruleOk] at this; omega
    have hct : fld line 2 ∈ ALLOWED_CATEGORIES := by simpa [ruleOk] using hbelow 5 (by omega)
    rcases hpo : pyFloat? (fld line 3) with _ | p
    · simp [parse_and_validate, h0, hv, hv0, hvm, hnm, hct, hpo, reasonOf]
    · simp [ruleOk, hpo] at hthis
  · have h0 : (fields line).length = 7 := by simpa [ruleOk] using hbelow 0 (by omega)
    obtain ⟨v, hv⟩ : ∃ v, pyInt? (fld line 0) = some v := by
      simpa [ruleOk, Option.isSome_iff_exists] using hbelow 1 (by omega)
    have hv0 : ¬ v ≤ 0 := by
      have := hbelow 2 (by omega); simp [ruleOk, idOf, hv] at this; omega
    have hvm : v ∉ used := by simpa [ruleOk, idOf, hv] using hbelow 3 (by omega)
    have hnm : ¬ ((pyStrip (fld line 1)).length < 3 ∨ 50 < (pyStrip (fld line 1)).length) := by
      have := hbelow 4 (by omega); simp [ruleOk] at this; omega
    have hct : fld line 2 ∈ ALLOWED_CATEGORIES := by simpa [ruleOk] using hbelow 5 (by omega)
    obtain ⟨p, hp⟩ : ∃ p, pyFloat? (fld line 3) = some p := by
      simpa [ruleOk, Option.isSome_iff_exists] using hbelow 6 (by omega)
    have hple : p ≤ 0 := by
      have := hthis
      simp [ruleOk, priceOf, hp, decide_eq_false_iff_not] at this
      exact this
    simp [parse_and_validate, h0, hv, hv0, hvm, hnm, hct, hp, hple, reasonOf]
  · have h0 : (fields line).length = 7 := by simpa [ruleOk] using hbelow 0 (by omega)
    obtain ⟨v, hv⟩ : ∃ v, pyInt? (fld line 0) = some v := by
      simpa [ruleOk, Option.isSome_iff_exists] using hbelow 1 (by omega)
    have hv0 : ¬ v ≤ 0 := by
      have := hbelow 2 (by omega); simp [ruleOk, idOf, hv] at this; omega
    have hvm : v ∉ used := by simpa [ruleOk, idOf, hv] using hbelow 3 (by omega)
    have hnm : ¬ ((pyStrip (fld line 1)).length < 3 ∨ 50 < (pyStrip (fld line 1)).length) := by
      have := hbelow 4 (by omega); simp [ruleOk] at this; omega
    have hct : fld line 2 ∈ ALLOWED_CATEGORIES := by simpa [ruleOk] using hbelow 5 (by omega)
    obtain ⟨p, hp⟩ : ∃ p, pyFloat? (fld line 3) = some p := by
      simpa [ruleOk, Option.isSome_iff_exists] using hbelow 6 (by omega)
    have hp0 : ¬ p ≤ 0 := by
      have := hbelow 7 (by omega); simp [ruleOk, priceOf, hp] at this; exact not_le.mpr this
    rcases hqo : pyInt? (fld line 4) with _ | q
    · simp [parse_and_validate, h0, hv, hv0, hvm, hnm, hct, hp, hp0, hqo, reasonOf]
    · simp [ruleOk, hqo] at hthis
  · have h0 : (fields line).length = 7 := by simpa [ruleOk] using hbelow 0 (by omega)
    obtain ⟨v, hv⟩ : ∃ v, pyInt? (fld line 0) = some v := by
      simpa [ruleOk, Option.isSome_iff_exists] using hbelow 1 (by omega)
    have hv0 : ¬ v ≤ 0 := by
      have := hbelow 2 (by omega); simp [ruleOk, idOf, hv] at this; omega
    have hvm : v ∉ used := by simpa [ruleOk, idOf, hv] using hbelow 3 (by omega)
    have hnm : ¬ ((pyStrip (fld line 1)).length < 3 ∨ 50 < (pyStrip (fld line 1)).length) := by
      have := hbelow 4 (by omega); simp [ruleOk] at this; omega
    have hct : fld line 2 ∈ ALLOWED_CATEGORIES := by simpa [ruleOk] using hbelow 5 (by omega)
    obtain ⟨p, hp⟩ : ∃ p, pyFloat? (fld line 3) = some p := by
      simpa [ruleOk, Option.isSome_iff_exists] using hbelow 6 (by omega)
    have hp0 : ¬ p ≤ 0 := by
      have := hbelow 7 (by omega); simp [ruleOk, priceOf, hp] at this; exact not_le.mpr this
    obtain ⟨q, hq⟩ : ∃ q, pyInt? (fld line 4) = some q := by
      simpa [ruleOk, Option.isSome_iff_exists] using hbelow 8 (by omega)
    have hqlt : q < 0 := by
      have := hthis
      simp [ruleOk, qtyOf, hq, decide_eq_false_iff_not] at this
      exact this
    simp [parse_and_validate, h0, hv, hv0, hvm, hnm, hct, hp, hp0, hq, hqlt, reasonOf]
  · have h0 : (fields line).length = 7 := by simpa [ruleOk] using hbelow 0 (by omega)
    obtain ⟨v, hv⟩ : ∃ v, pyInt? (fld line 0) = some v := by
      simpa [ruleOk, Option.isSome_iff_exists] using hbelow 1 (by omega)
    have hv0 : ¬ v ≤ 0 := by
      have := hbelow 2 (by omega); simp [ruleOk, idOf, hv] at this; omega
    have hvm : v ∉ used := by simpa [ruleOk, idOf, hv] using hbelow 3 (by omega)
    have hnm : ¬ ((pyStrip (fld line 1)).length < 3 ∨ 50 < (pyStrip (fld line 1)).length) := by
      have := hbelow 4 (by omega); simp [ruleOk] at this; omega
    have hct : fld line 2 ∈ ALLOWED_CATEGORIES := by simpa [ruleOk] using hbelow 5 (by omega)
    obtain ⟨p, hp⟩ : ∃ p, pyFloat? (fld line 3) = some p := by
      simpa [ruleOk, Option.isSome_iff_exists] using hbelow 6 (by omega)
    have hp0 : ¬ p ≤ 0 := by
      have := hbelow 7 (by omega); simp [ruleOk, priceOf, hp] at this; exact not_le.mpr this
    obtain ⟨q, hq⟩ : ∃ q, pyInt? (fld line 4) = some q := by
      simpa [ruleOk, Option.isSome_iff_exists] using hbelow 8 (by omega)
    have hq0 : ¬ q < 0 := by
      have := hbelow 9 (by omega); simp [ruleOk, qtyOf, hq] at this; omega
    rcases hdo : pyFloat? (fld line 5) with _ | d
    · simp [parse_and_validate, h0, hv, hv0, hvm, hnm, hct, hp, hp0, hq, hq0, hdo, reasonOf]
    · simp [ruleOk, hdo] at hthis
  · have h0 : (fields line).length = 7 := by simpa [ruleOk] using hbelow 0 (by omega)
    obtain ⟨v, hv⟩ : ∃ v, pyInt? (fld line 0) = some v := by
      simpa [ruleOk, Option.isSome_iff_exists] using hbelow 1 (by omega)
    have hv0 : ¬ v ≤ 0 := by
      have := hbelow 2 (by omega); simp [ruleOk, idOf, hv] at this; omega
    have hvm : v ∉ used := by simpa [ruleOk, idOf, hv] using hbelow 3 (by omega)
    have hnm : ¬ ((pyStrip (fld line 1)).length < 3 ∨ 50 < (pyStrip (fld line 1)).length) := by
      have := hbelow 4 (by omega); simp [ruleOk] at this; omega
    have hct : fld line 2 ∈ ALLOWED_CATEGORIES := by simpa [ruleOk] using hbelow 5 (by omega)
    obtain ⟨p, hp⟩ : ∃ p, pyFloat? (fld line 3) = some p := by
      simpa [ruleOk, Option.isSome_iff_exists] using hbelow 6 (by omega)
    have hp0 : ¬ p ≤ 0 := by
      have := hbelow 7 (by omega); simp [ruleOk, priceOf, hp] at this; exact not_le.mpr this
    obtain ⟨q, hq⟩ : ∃ q, pyInt? (fld line 4) = some q := by
      simpa [ruleOk, Option.isSome_iff_exists] using hbelow 8 (by omega)
    have hq0 : ¬ q < 0 := by
      have := hbelow 9 (by omega); simp [ruleOk, qtyOf, hq] at this; omega
    obtain ⟨d, hd⟩ : ∃ d, pyFloat? (fld line 5) = some d := by
      simpa [ruleOk, Option.isSome_iff_exists] using hbelow 10 (by omega)
    have hdbad : d < 0 ∨ 50 < d := by
      have := hthis
      simp [ruleOk, discountOf, hd, decide_eq_false_iff_not] at this
      by_cases h : (0 : ℚ) ≤ d
      · exact Or.inr (this h)
      · exact Or.inl (not_le.mp h)
    simp [parse_and_validate, h0, hv, hv0, hvm, hnm, hct, hp, hp0, hq, hq0, hd, hdbad, reasonOf]
  · have h0 : (fields line).length = 7 := by simpa [ruleOk] using hbelow 0 (by omega)
    obtain ⟨v, hv⟩ : ∃ v, pyInt? (fld line 0) = some v := by
      simpa [ruleOk, Option.isSome_iff_exists] using hbelow 1 (by omega)
    have hv0 : ¬ v ≤ 0 := by
      have := hbelow 2 (by omega); simp [ruleOk, idOf, hv] at this; omega
    have hvm : v ∉ used := by simpa [ruleOk, idOf, hv] using hbelow 3 (by omega)
    have hnm : ¬ ((pyStrip (fld line 1)).length < 3 ∨ 50 < (pyStrip (fld line 1)).length) := by
      have := hbelow 4 (by omega); simp [ruleOk] at this; omega
    have hct : fld line 2 ∈ ALLOWED_CATEGORIES := by simpa [ruleOk] using hbelow 5 (by omega)
    obtain ⟨p, hp⟩ : ∃ p, pyFloat? (fld line 3) = some p := by
      simpa [ruleOk, Option.isSome_iff_exists] using hbelow 6 (by omega)
    have hp0 : ¬ p ≤ 0 := by
      have := hbelow 7 (by omega); simp [ruleOk, priceOf, hp] at this; exact not_le.mpr this
    obtain ⟨q, hq⟩ : ∃ q, pyInt? (fld line 4) = some q := by
      simpa [ruleOk, Option.isSome_iff_exists] using hbelow 8 (by omega)
    have hq0 : ¬ q < 0 := by
      have := hbelow 9 (by omega); simp [ruleOk, qtyOf, hq] at this; omega
    obtain ⟨d, hd⟩ : ∃ d, pyFloat? (fld line 5) = some d := by
      simpa [ruleOk, Option.isSome_iff_exists] using hbelow 10 (by omega)
    have hd0 : ¬ (d < 0 ∨ 50 < d) := by
      have := hbelow 11 (by omega)
      simp [ruleOk, discountOf, hd] at this
      rw [not_or]
      exact ⟨not_lt.mpr this.1, not_lt.mpr this.2⟩
    have hfood : fld line 2 = "food" ∧ 20 < d := by
      have := hthis
      simpa [ruleOk, discountOf, hd, decide_eq_false_iff_not, not_not] using this
    simp [parse_and_validate, h0, hv, hv0, hvm, hnm, hct, hp, hp0, hq, hq0, hd, hd0, hfood,
      ALLOWED_CATEGORIES, reasonOf]
  · have h0 : (fields line).length = 7 := by simpa [ruleOk] using hbelow 0 (by omega)
    obtain ⟨v, hv⟩ : ∃ v, pyInt? (fld line 0) = some v := by
      simpa [ruleOk, Option.isSome_iff_exists] using hbelow 1 (by omega)
    have hv0 : ¬ v ≤ 0 := by
      have := hbelow 2 (by omega); simp [ruleOk, idOf, hv] at this; omega
    have hvm : v ∉ used := by simpa [ruleOk, idOf, hv] using hbelow 3 (by omega)
    have hnm : ¬ ((pyStrip (fld line 1)).length < 3 ∨ 50 < (pyStrip (fld line 1)).length) := by
      have := hbelow 4 (by omega); simp [ruleOk] at this; omega
    have hct : fld line 2 ∈ ALLOWED_CATEGORIES := by simpa [ruleOk] using hbelow 5 (by omega)
    obtain ⟨p, hp⟩ : ∃ p, pyFloat? (fld line 3) = some p := by
      simpa [ruleOk, Option.isSome_iff_exists] using hbelow 6 (by omega)
    have hp0 : ¬ p ≤ 0 := by
      have := hbelow 7 (by omega); simp [ruleOk, priceOf, hp] at this; exact not_le.mpr this
    obtain ⟨q, hq⟩ : ∃ q, pyInt? (fld line 4) = some q := by
      simpa [ruleOk, Option.isSome_iff_exists] using hbelow 8 (by omega)
    have hq0 : ¬ q < 0 := by
      have := hbelow 9 (by omega); simp [ruleOk, qtyOf, hq] at this; omega
    obtain ⟨d, hd⟩ : ∃ d, pyFloat? (fld line 5) = some d := by
      simpa [ruleOk, Option.isSome_iff_exists] using hbelow 10 (by omega)
    have hd0 : ¬ (d < 0 ∨ 50 < d) := by
      have := hbelow 11 (by omega)
      simp [ruleOk, discountOf, hd] at this
      rw [not_or]
      exact ⟨not_lt.mpr this.1, not_lt.mpr this.2⟩
    have hfd : ¬ (fld line 2 = "food" ∧ 20 < d) := by
      have h12 := hbelow 12 (by omega)
      simp [ruleOk, discountOf, hd] at h12
      rcases h12 with h | h
      · exact fun hc => h hc.1
      · exact fun hc => absurd hc.2 (not_lt.mpr h)
    rcases hdto : pyDate? (fld line 6) with _ | dt
    · simp [parse_and_validate, h0, hv, hv0, hvm, hnm, hct, hp, hp0, hq, hq0, hd, hd0, hfd,
        hdto, reasonOf]
    · simp [ruleOk, hdto] at hthis
  · have h0 : (fields line).length = 7 := by simpa [ruleOk] using hbelow 0 (by omega)
    obtain ⟨v, hv⟩ : ∃ v, pyInt? (fld line 0) = some v := by
      simpa [ruleOk, Option.isSome_iff_exists] using hbelow 1 (by omega)
    have hv0 : ¬ v ≤ 0 := by
      have := hbelow 2 (by omega); simp [ruleOk, idOf, hv] at this; omega
    have hvm : v ∉ used := by simpa [ruleOk, idOf, hv] using hbelow 3 (by omega)
    have hnm : ¬ ((pyStrip (fld line 1)).length < 3 ∨ 50 < (pyStrip (fld line 1)).length) := by
      have := hbelow 4 (by omega); simp [ruleOk] at this; omega
    have hct : fld line 2 ∈ ALLOWED_CATEGORIES := by simpa [ruleOk] using hbelow 5 (by omega)
    obtain ⟨p, hp⟩ : ∃ p, pyFloat? (fld line 3) = some p := by
      simpa [ruleOk, Option.isSome_iff_exists] using hbelow 6 (by omega)
    have hp0 : ¬ p ≤ 0 := by
      have := hbelow 7 (by omega); simp [ruleOk, priceOf, hp] at this; exact not_le.mpr this
    obtain ⟨q, hq⟩ : ∃ q, pyInt? (fld line 4) = some q := by
      simpa [ruleOk, Option.isSome_iff_exists] using hbelow 8 (by omega)
    have hq0 : ¬ q < 0 := by
      have := hbelow 9 (by omega); simp [ruleOk, qtyOf, hq] at this; omega
    obtain ⟨d, hd⟩ : ∃ d, pyFloat? (fld line 5) = some d := by
      simpa [ruleOk, Option.isSome_iff_exists] using hbelow 10 (by omega)
    have hd0 : ¬ (d < 0 ∨ 50 < d) := by
      have := hbelow 11 (by omega)
      simp [ruleOk, discountOf, hd] at this
      rw [not_or]
      exact ⟨not_lt.mpr this.1, not_lt.mpr this.2⟩
    have hfd : ¬ (fld line 2 = "food" ∧ 20 < d) := by
      have h12 := hbelow 12 (by omega)
      simp [ruleOk, discountOf, hd] at h12
      rcases h12 with h | h
      · exact fun hc => h hc.1
      · exact fun hc => absurd hc.2 (not_lt.mpr h)
    obtain ⟨dt, hdt⟩ : ∃ dt, pyDate? (fld line 6) = some dt := by
      simpa [ruleOk, Option.isSome_iff_exists] using hbelow 13 (by omega)
    have htrue : dateLt today dt = true := by
      have := hthis
      simpa [ruleOk, dateOf, hdt] using this
    simp [parse_and_validate, h0, hv, hv0, hvm, hnm, hct, hp, hp0, hq, hq0, hd, hd0, hfd,
      hdt, htrue, reasonOf]
  · have h0 : (fields line).length = 7 := by simpa [ruleOk] using hbelow 0 (by omega)
    obtain ⟨v, hv⟩ : ∃ v, pyInt? (fld line 0) = some v := by
      simpa [ruleOk, Option.isSome_iff_exists] using hbelow 1 (by omega)
    have hv0 : ¬ v ≤ 0 := by
      have := hbelow 2 (by omega); simp [ruleOk, idOf, hv] at this; omega
    have hvm : v ∉ used := by simpa [ruleOk, idOf, hv] using hbelow 3 (by omega)
    have hnm : ¬ ((pyStrip (fld line 1)).length < 3 ∨ 50 < (pyStrip (fld line 1)).length) := by
      have := hbelow 4 (by omega); simp [ruleOk] at this; omega
    have hct : fld line 2 ∈ ALLOWED_CATEGORIES := by simpa [ruleOk] using hbelow 5 (by omega)
    obtain ⟨p, hp⟩ : ∃ p, pyFloat? (fld line 3) = some p := by
      simpa [ruleOk, Option.isSome_iff_exists] using hbelow 6 (by omega)
    have hp0 : ¬ p ≤ 0 := by
      have := hbelow 7 (by omega); simp [ruleOk, priceOf, hp] at this; exact not_le.mpr this
    obtain ⟨q, hq⟩ : ∃ q, pyInt? (fld line 4) = some q := by
      simpa [ruleOk, Option.isSome_iff_exists] using hbelow 8 (by omega)
    have hq0 : ¬ q < 0 := by
      have := hbelow 9 (by omega); simp [ruleOk, qtyOf, hq] at this; omega
    obtain ⟨d, hd⟩ : ∃ d, pyFloat? (fld line 5) = some d := by
      simpa [ruleOk, Option.isSome_iff_exists] using hbelow 10 (by omega)
    have hd0 : ¬ (d < 0 ∨ 50 < d) := by
      have := hbelow 11 (by omega)
      simp [ruleOk, discountOf, hd] at this
      rw [not_or]
      exact ⟨not_lt.mpr this.1, not_lt.mpr this.2⟩
    have hfd : ¬ (fld line 2 = "food" ∧ 20 < d) := by
      have h12 := hbelow 12 (by omega)
      simp [ruleOk, discountOf, hd] at h12
      rcases h12 with h | h
      · exact fun hc => h hc.1
      · exact fun hc => absurd hc.2 (not_lt.mpr h)
    obtain ⟨dt, hdt⟩ : ∃ dt, pyDate? (fld line 6) = some dt := by
      simpa [ruleOk, Option.isSome_iff_exists] using hbelow 13 (by omega)
    have hft : dateLt today dt = false := by
      have := hbelow 14 (by omega)
      simpa [ruleOk, dateOf, hdt] using this
    have hlt : p * (1 - d / 100) < 1 := by
      have := hthis
      simp [ruleOk, priceOf, discountOf, hp, hd, decide_eq_false_iff_not] at this
      exact this
    simp [parse_and_validate, h0, hv, hv0, hvm, hnm, hct, hp, hp0, hq, hq0, hd, hd0, hfd,
      hdt, hft, hlt, reasonOf]

lemma validate_all_pass (line : String) (n : ℕ) (used : List ℤ) (today : PyDate)
    (hall : ∀ j, j < 16 → ruleOk line used today j = true) :
    (parse_and_validate line n used today).1 =
      VResult.ok ⟨idOf line, pyStrip (fld line 1), fld line 2,
        round2 (priceOf line * (1 - discountOf line / 100)), qtyOf line,
        round2 (priceOf line * (1 - discountOf line / 100) * (qtyOf line : ℚ))⟩ := by
  have h0 : (fields line).length = 7 := by simpa [ruleOk] using hall 0 (by omega)
  obtain ⟨v, hv⟩ : ∃ v, pyInt? (fld line 0) = some v := by
    simpa [ruleOk, Option.isSome_iff_exists] using hall 1 (by omega)
  have hv0 : ¬ v ≤ 0 := by
    have := hall 2 (by omega); simp [ruleOk, idOf, hv] at this; omega
  have hvm : v ∉ used := by simpa [ruleOk, idOf, hv] using hall 3 (by omega)
  have hnm : ¬ ((pyStrip (fld line 1)).length < 3 ∨ 50 < (pyStrip (fld line 1)).length) := by
    have := hall 4 (by omega); simp [ruleOk] at this; omega
  have hct : fld line 2 ∈ ALLOWED_CATEGORIES := by simpa [ruleOk] using hall 5 (by omega)
  obtain ⟨p, hp⟩ : ∃ p, pyFloat? (fld line 3) = some p := by
    simpa [ruleOk, Option.isSome_iff_exists] using hall 6 (by omega)
  have hp0 : ¬ p ≤ 0 := by
    have := hall 7 (by omega); simp [ruleOk, priceOf, hp] at this; exact not_le.mpr this
  obtain ⟨q, hq⟩ : ∃ q, pyInt? (fld line 4) = some q := by
    simpa [ruleOk, Option.isSome_iff_exists] using hall 8 (by omega)
  have hq0 : ¬ q < 0 := by
    have := hall 9 (by omega); simp [ruleOk, qtyOf, hq] at this; omega
  obtain ⟨d, hd⟩ : ∃ d, pyFloat? (fld line 5) = some d := by
    simpa [ruleOk, Option.isSome_iff_exists] using hall 10 (by omega)
  have hd0 : ¬ (d < 0 ∨ 50 < d) := by
    have := hall 11 (by omega)
    simp [ruleOk, discountOf, hd] at this
    rw [not_or]
    exact ⟨not_lt.mpr this.1, not_lt.mpr this.2⟩
  have hfd : ¬ (fld line 2 = "food" ∧ 20 < d) := by
    have h12 := hall 12 (by omega)
    simp [ruleOk, discountOf, hd] at h12
    rcases h12 with h | h
    · exact fun hc => h hc.1
    · exact fun hc => absurd hc.2 (not_lt.mpr h)
  obtain ⟨dt, hdt⟩ : ∃ dt, pyDate? (fld line 6) = some dt := by
    simpa [ruleOk, Option.isSome_iff_exists] using hall 13 (by omega)
  have hft : dateLt today dt = false := by
    have := hall 14 (by omega)
    simpa [ruleOk, dateOf, hdt] using this
  have hfp : ¬ p * (1 - d / 100) < 1 := by
    have := hall 15 (by omega)
    simp [ruleOk, priceOf, discountOf, hp, hd] at this
    exact not_lt.mpr this
  simp [parse_and_validate, h0, hv, hv0, hvm, hnm, hct, hp, hp0, hq, hq0, hd, hd0, hfd,
    hdt, hft, hfp, idOf, priceOf, qtyOf, discountOf]

lemma validate_err_iff (line : String) (n : ℕ) (used : List ℤ) (today : PyDate)
    (k : ℕ) (hk : k < 16) :
    ((parse_and_validate line n used today).1 = VResult.err (reasonOf k)) ↔
      ((∀ j, j < k → ruleOk line used today j = true) ∧ ruleOk line used today k = false) := by
  constructor
  · intro h
    by_cases hall : ∀ j, j < 16 → ruleOk line used today j = true
    · rw [validate_all_pass line n used today hall] at h
      exact absurd h (by simp)
    · push_neg at hall
      obtain ⟨j, hj, hfail⟩ := hall
      have hfail' : ruleOk line used today j = false := by
        revert hfail; cases ruleOk line used today j <;> simp
      have hex : ∃ m, ruleOk line used today m = false := ⟨j, hfail'⟩
      have hspec : ruleOk line used today (Nat.find hex) = false := Nat.find_spec hex
      have hmin : ∀ m, m < Nat.find hex → ruleOk line used today m = true := by
        intro m hm
        have := Nat.find_min hex hm
        revert this; cases ruleOk line used today m <;> simp
      have hi16 : Nat.find hex < 16 := lt_of_le_of_lt (Nat.find_min' hex hfail') hj
      have heq := validate_first_fail line n used today (Nat.find hex) hi16 hmin hspec
      rw [heq] at h
      injection h with hmsg
      have hik : Nat.find hex = k := reasonOf_inj (Nat.find hex) hi16 k hk hmsg
      rw [hik] at hmin hspec
      exact ⟨hmin, hspec⟩
  · rintro ⟨hbelow, hfail⟩
    exact validate_first_fail line n used today k hk hbelow hfail

/-- C4: validation is fail-fast in the fixed source order: for `k < 16`
the validator reports the `k`-th failure reason exactly when every rule
before `k` passes and rule `k` fails — so a later rule's reason is never
reported when an earlier rule fails. -/
theorem C4_fail_fast (line : String) (n : ℕ) (used : List ℤ) (today : PyDate)
    (k : ℕ) (hk : k < 16) :
    (parse_and_validate line n used today).1 = VResult.err (reasonOf k) ↔
      (∀ j, j < k → ruleOk line used today j = true) ∧
        ruleOk line used today k = false :=
  validate_err_iff line n used today k hk

/-- Witness for C4: a duplicate id (rule 3); rules 0–2 pass. -/
theorem C4_witness :
    (parse_and_validate "5;Widget;books;10;1;0;2020-01-01" 1 [5] ⟨2026, 10, 12⟩).1 =
      VResult.err (reasonOf 3) :=
  (C4_fail_fast "5;Widget;books;10;1;0;2020-01-01" 1 [5] ⟨2026, 10, 12⟩ 3 (by omega)).mpr
    ⟨by with_unfolding_all decide, by with_unfolding_all decide⟩

/-- C2 as stated is false: with price 1.998 and discount 50 the rounded
final price is 1.00, not below the floor, yet validation fails with the
final-price-floor reason — the code compares the unrounded product. -/
theorem C2_counterexample :
    (parse_and_validate "2;Widget;electronics;1.998;1;50;2020-01-01" 1 [] ⟨2026, 10, 12⟩).1 =
      VResult.err "итоговая цена меньше 1" ∧
    pyFloat? "1.998" = some (999 / 500) ∧
    pyFloat? "50" = some 50 ∧
    ¬ round2 ((999 / 500 : ℚ) * (1 - 50 / 100)) < 1 := by
  refine ⟨?_, ?_, ?_, ?_⟩ <;> with_unfolding_all decide

/-- C2 (amended): step 10 fails with the final-price-floor reason
exactly when steps 1–9 pass and the UNROUNDED product
`price * (1 - discount/100)` is below 1; the 2-decimal rounding is
applied only afterwards, when the record is assembled. -/
theorem C2_floor_on_unrounded (line : String) (n : ℕ) (used : List ℤ) (today : PyDate) :
    (parse_and_validate line n used today).1 = VResult.err "итоговая цена меньше 1" ↔
      (∀ j, j < 15 → ruleOk line used today j = true) ∧
        priceOf line * (1 - discountOf line / 100) < 1 := by
  have h := validate_err_iff line n used today 15 (by omega)
  simpa [ruleOk, reasonOf, decide_eq_false_iff_not] using h

lemma roundHalfEven_ge {z : ℤ} {q : ℚ} (h : (z : ℚ) ≤ q) : z ≤ roundHalfEven q := by
  have hfl : z ≤ Rat.floor q := Rat.le_floor.mpr h
  simp only [roundHalfEven]
  split_ifs <;> omega

lemma one_le_round2 {q : ℚ} (h : 1 ≤ q) : 1 ≤ round2 q := by
  have h100 : (100 : ℤ) ≤ roundHalfEven (100 * q) := by
    refine roundHalfEven_ge ?_
    push_cast
    linarith
  simp only [round2]
  rw [le_div_iff₀ (by norm_num : (0 : ℚ) < 100)]
  calc (1 : ℚ) * 100 = ((100 : ℤ) : ℚ) := by norm_num
    _ ≤ (roundHalfEven (100 * q) : ℚ) := by exact_mod_cast h100

lemma validate_ok_all_rules (line : String) (n : ℕ) (used : List ℤ) (today : PyDate)
    (r : ValidRecord) (u : List ℤ)
    (h : parse_and_validate line n used today = (VResult.ok r, u)) :
    ∀ j, j < 16 → ruleOk line used today j = true := by
  by_contra hne
  push_neg at hne
  obtain ⟨j, hj, hfail⟩ := hne
  have hfail' : ruleOk line used today j = false := by
    revert hfail; cases ruleOk line used today j <;> simp
  have hex : ∃ m, ruleOk line used today m = false := ⟨j, hfail'⟩
  have hspec : ruleOk line used today (Nat.find hex) = false := Nat.find_spec hex
  have hmin : ∀ m, m < Nat.find hex → ruleOk line used today m = true := by
    intro m hm
    have := Nat.find_min hex hm
    revert this; cases ruleOk line used today m <;> simp
  have hi16 : Nat.find hex < 16 := lt_of_le_of_lt (Nat.find_min' hex hfail') hj
  have heq := validate_first_fail line n used today (Nat.find hex) hi16 hmin hspec
  rw [h] at heq
  exact absurd heq (by simp)

lemma validate_ok_invariant (line : String) (n : ℕ) (used : List ℤ) (today : PyDate)
    (r : ValidRecord) (u : List ℤ)
    (h : parse_and_validate line n used today = (VResult.ok r, u)) :
    RecordInvariant r := by
  have hall := validate_ok_all_rules line n used today r u h
  have heq := validate_all_pass line n used today hall
  rw [h] at heq
  injection heq with heq
  subst heq
  have hq0 : (0 : ℤ) ≤ qtyOf line := by
    obtain ⟨q, hq⟩ : ∃ q, pyInt? (fld line 4) = some q := by
      simpa [ruleOk, Option.isSome_iff_exists] using hall 8 (by omega)
    have := hall 9 (by omega)
    simp [ruleOk, qtyOf, hq] at this
    simp [qtyOf, hq]
    omega
  have hnm : 3 ≤ (pyStrip (fld line 1)).length ∧ (pyStrip (fld line 1)).length ≤ 50 := by
    have := hall 4 (by omega)
    simp [ruleOk] at this
    omega
  have hct : fld line 2 ∈ ALLOWED_CATEGORIES := by simpa [ruleOk] using hall 5 (by omega)
  have hfp : 1 ≤ priceOf line * (1 - discountOf line / 100) := by
    obtain ⟨p, hp⟩ : ∃ p, pyFloat? (fld line 3) = some p := by
      simpa [ruleOk, Option.isSome_iff_exists] using hall 6 (by omega)
    obtain ⟨d, hd⟩ : ∃ d, pyFloat? (fld line 5) = some d := by
      simpa [ruleOk, Option.isSome_iff_exists] using hall 10 (by omega)
    have := hall 15 (by omega)
    simpa [ruleOk, priceOf, discountOf, hp, hd] using this
  refine ⟨one_le_round2 hfp, hq0, hct, ?_, ?_, ?_⟩
  · simpa [pyStrip] using hnm.1
  · simpa [pyStrip] using hnm.2
  · exact ⟨priceOf line * (1 - discountOf line / 100), hfp, rfl, rfl⟩

/-- C1 (amended): every record produced by validation — and hence every
element of the valid-record sequence of `processLines` — satisfies
`1 ≤ final_price`, `0 ≤ quantity`, an allowed category, trimmed-name
length in `[3, 50]`, and `total_value = round2 (fp * quantity)` where
`fp` is the UNROUNDED final price of which the stored `final_price` is
the 2-decimal rounding. -/
theorem C1_record_invariant :
    (∀ (line : String) (n : ℕ) (used : List ℤ) (today : PyDate) (r : ValidRecord)
        (u : List ℤ),
        parse_and_validate line n used today = (VResult.ok r, u) → RecordInvariant r) ∧
    (∀ (today : PyDate) (used : List ℤ) (n : ℕ) (lines : List String) (r : ValidRecord),
        r ∈ (processLines today used n lines).1 → RecordInvariant r) := by
  refine ⟨fun line n used today r u h => validate_ok_invariant line n used today r u h, ?_⟩
  intro today used n lines
  induction lines generalizing used n with
  | nil => intro r hr; simp [processLines] at hr
  | cons line rest ih =>
    intro r hr
    by_cases hb : pyStrip line = ""
    · simp only [processLines, if_pos hb] at hr
      exact ih used (n + 1) r hr
    · rcases hv : parse_and_validate line n used today with ⟨res, u'⟩
      cases res with
      | ok r' =>
        simp only [processLines, if_neg hb, hv, List.mem_cons] at hr
        rcases hr with rfl | hr
        · exact validate_ok_invariant line n used today r u' hv
        · exact ih u' (n + 1) r hr
      | err m =>
        simp only [processLines, if_neg hb, hv] at hr
        exact ih u' (n + 1) r hr

/-- C1 as stated is false in its `total_value` conjunct: for the line
below the stored (rounded) `final_price` is 1.00 but `total_value` is
5.02 = `round2` of the UNROUNDED final price 1.004 times quantity 5,
whereas `round2 (final_price * quantity) = 5.00`. -/
theorem C1_counterexample :
    (parse_and_validate "1;Widget;electronics;1.004;5;0;2020-01-01" 1 [] ⟨2026, 10, 12⟩).1 =
      VResult.ok (ValidRecord.mk 1 "Widget" "electronics" 1 5 (251 / 50)) ∧
    (ValidRecord.mk 1 "Widget" "electronics" 1 5 (251 / 50)).total_value ≠
      round2 ((ValidRecord.mk 1 "Widget" "electronics" 1 5 (251 / 50)).final_price *
        ((ValidRecord.mk 1 "Widget" "electronics" 1 5 (251 / 50)).quantity : ℚ)) := by
  constructor <;> with_unfolding_all decide

/-- Witness for C1 at two concrete accepted lines, one through the
validator directly and one through `processLines`. -/
theorem C1_witness :
    RecordInvariant (ValidRecord.mk 7 "Widget" "electronics" 90 2 180) ∧
    RecordInvariant (ValidRecord.mk 9 "Gadget" "books" 45 3 135) :=
  ⟨C1_record_invariant.1 "7;Widget;electronics;100.00;2;10;2020-01-01" 1 [] ⟨2026, 10, 12⟩
      (ValidRecord.mk 7 "Widget" "electronics" 90 2 180) [7] (by with_unfolding_all decide),
   C1_record_invariant.2 ⟨2026, 10, 12⟩ [] 1 ["9;Gadget;books;50;3;10;2020-01-01"]
      (ValidRecord.mk 9 "Gadget" "books" 45 3 135) (by with_unfolding_all decide)⟩
